import Mathlib

/-!
Shallow embedding of the core transform-and-validate pipeline of
`scripts/etl_pipeline_nike_sales.py` (functions `transform_data` and
`validate_data`).

Modelling conventions:
- A dataframe is a `List Row`; a missing value (pandas `NaN` / `NaT`) is
  `Option.none`.  Numeric columns are `Option ℚ` (exact rationals standing
  for the floating values; all claims are about exact formulas and a 0.01
  tolerance, where rational arithmetic is faithful).
- pandas NaN semantics are modelled explicitly: comparisons with a missing
  value are `false`, aggregations (`median`, `quantile`, `min`, `max`,
  `mode`) skip missing values and are `none` on an empty column.
- `pd.to_datetime(..., errors="coerce")` is modelled by `coerceDate`; the
  library date parser is abstracted to ISO `YYYY-MM-DD` strings
  (`parseDate`); the claims touching dates only depend on whether parsing
  succeeds, never on the parsed value.
- The per-step counts that the script writes to its log are returned as a
  `TransformStats` record alongside the cleaned dataset.
- Step 7 of the script (`pd.to_numeric(..., errors="coerce")` on the five
  numeric columns) is the identity on this typed model, since the numeric
  columns are already `Option ℚ`; it is kept as the explicit `numericRow`
  step.
- `datetime.now()` metadata (the `etl_timestamp` column) is not modelled;
  the `etl_version` stamp is.
-/

set_option allowUnsafeReducibility true
attribute [semireducible] Rat.mul Rat.add Rat.sub Rat.inv

namespace NikeETL

deriving instance DecidableEq for Except

/-- A cell of the `Order_Date` column: either an already-parsed date
(pandas `Timestamp`, encoded as a `Nat`) or a raw unparsed string. -/
inductive DateVal where
  | parsedD : Nat → DateVal
  | rawD : String → DateVal
deriving DecidableEq, Repr

/-- One row of the dataset.  `none` models a pandas missing value. -/
structure Row where
  Order_ID : Option String
  Order_Date : Option DateVal
  Region : Option String
  Product_Line : Option String
  Gender_Category : Option String
  Size : Option String
  Units_Sold : Option ℚ
  MRP : Option ℚ
  Discount_Applied : Option ℚ
  Profit : Option ℚ
  Revenue : Option ℚ
  Loss_Flag : Option Bool
  etl_version : Option String
deriving DecidableEq, Repr

/-- `ETLConfig.VALID_REGIONS` from the script. -/
def VALID_REGIONS : List String :=
  ["Bangalore", "Hyderabad", "Mumbai", "Pune", "Delhi", "Kolkata"]

/-- `ETLConfig.OUTLIER_THRESHOLD` from the script. -/
def OUTLIER_THRESHOLD : ℚ := 3 / 2

/-- Python `str.title()` on a character list: an alphabetic character is
upper-cased when the previous character is not alphabetic, lower-cased
otherwise. -/
def titleAux : Bool → List Char → List Char
  | _, [] => []
  | prev, c :: cs =>
    (if c.isAlpha then (if prev then c.toLower else c.toUpper) else c) ::
      titleAux c.isAlpha cs

/-- Python `str.title()`. -/
def titleCase (s : String) : String := String.mk (titleAux false s.data)

/-- Python whitespace characters for `str.strip()`. -/
def isSpaceChar (c : Char) : Bool :=
  (c = ' ') || (c = '\t') || (c = '\n') || (c = '\r') || (c = '\x0b') || (c = '\x0c')

/-- Python `str.strip()`: drop leading and trailing whitespace. -/
def stripChars (l : List Char) : List Char :=
  ((l.dropWhile isSpaceChar).reverse.dropWhile isSpaceChar).reverse

/-- Python `str.strip()` on strings. -/
def stripStr (s : String) : String := String.mk (stripChars s.data)

/-- `.str.strip().str.title()` as applied by the script. -/
def cleanStr (s : String) : String := titleCase (stripStr s)

def digitVal (c : Char) : Nat := c.toNat - 48

/-- Modelled from the spec: the library date parser behind
`pd.to_datetime` ("best-effort parse, unparsable values coerced to
missing"), abstracted to ISO `YYYY-MM-DD` strings encoded as
`y*10000 + m*100 + d`.  Claims depend only on parse success/failure. -/
def parseDate (s : String) : Option Nat :=
  match s.data with
  | [y1, y2, y3, y4, h1, m1, m2, h2, d1, d2] =>
    if y1.isDigit && y2.isDigit && y3.isDigit && y4.isDigit &&
       (h1 == '-') && m1.isDigit && m2.isDigit && (h2 == '-') &&
       d1.isDigit && d2.isDigit then
      let y := 1000 * digitVal y1 + 100 * digitVal y2 + 10 * digitVal y3 + digitVal y4
      let m := 10 * digitVal m1 + digitVal m2
      let d := 10 * digitVal d1 + digitVal d2
      if 1 ≤ m ∧ m ≤ 12 ∧ 1 ≤ d ∧ d ≤ 31 then some (10000 * y + 100 * m + d)
      else none
    else none
  | _ => none

/-- `pd.to_datetime(col, errors="coerce")` on one cell: missing stays
missing, a date stays itself, a raw string is parsed or coerced to
missing. -/
def coerceDate : Option DateVal → Option DateVal
  | none => none
  | some (DateVal.parsedD n) => some (DateVal.parsedD n)
  | some (DateVal.rawD s) => (parseDate s).map DateVal.parsedD

/-- The underlying date number of a coerced cell, `none` for missing. -/
def dateNat : Option DateVal → Option Nat
  | some (DateVal.parsedD n) => some n
  | _ => none

/-- Insertion into a sorted list of rationals. -/
def insertQ (x : ℚ) : List ℚ → List ℚ
  | [] => [x]
  | y :: ys => if x ≤ y then x :: y :: ys else y :: insertQ x ys

/-- Insertion sort, ascending. -/
def sortQ : List ℚ → List ℚ
  | [] => []
  | x :: xs => insertQ x (sortQ xs)

/-- pandas `Series.quantile(q)` with linear interpolation over the
non-missing values (the input list): `none` on an empty list, otherwise
interpolate at position `q * (n - 1)` of the sorted values. -/
def quantileQ (q : ℚ) (l : List ℚ) : Option ℚ :=
  let s := sortQ l
  if s.length = 0 then none
  else
    let pos := q * ((s.length : ℚ) - 1)
    let i := (⌊pos⌋).toNat
    let vi := s.getD i 0
    some (vi + (pos - (i : ℚ)) * (s.getD (i + 1) vi - vi))

/-- pandas `Series.median()` (skips missing values). -/
def medianQ (l : List ℚ) : Option ℚ := quantileQ (1 / 2) l

def countEq {α : Type} [DecidableEq α] (l : List α) (a : α) : Nat :=
  l.countP (fun x => decide (x = a))

/-- pandas `Series.mode()[0]`: the smallest (under `ltB`) of the most
frequent values, skipping missing values; `none` when there is no value
(which makes the script's `mode()[0]` raise `KeyError`). -/
def modeBy {α : Type} [DecidableEq α] (ltB : α → α → Bool) (l : List α) : Option α :=
  match l.dedup with
  | [] => none
  | c :: cs => some (cs.foldl (fun b x =>
      if countEq l b < countEq l x ∨ (countEq l x = countEq l b ∧ ltB x b = true)
      then x else b) c)

def charListLt : List Char → List Char → Bool
  | [], [] => false
  | [], _ :: _ => true
  | _ :: _, [] => false
  | a :: as, b :: bs => if a < b then true else if b < a then false else charListLt as bs

/-- Python string `<`, lexicographic on characters. -/
def strLtB (a b : String) : Bool := charListLt a.data b.data

def natLtB (a b : Nat) : Bool := decide (a < b)

/-- pandas `Series.min()` over the non-missing values, `none` if there
are none (NaN in pandas, which fails any comparison). -/
def minQ : List ℚ → Option ℚ
  | [] => none
  | x :: xs => match minQ xs with
    | none => some x
    | some m => some (min x m)

/-- pandas `Series.max()` over the non-missing values. -/
def maxQ : List ℚ → Option ℚ
  | [] => none
  | x :: xs => match maxQ xs with
    | none => some x
    | some m => some (max x m)

/-- `Series.fillna(v)` on one cell where the fill value may itself be
missing (`fillna(NaN)` leaves the cell missing). -/
def fillO : Option ℚ → Option ℚ → Option ℚ
  | some v, _ => some v
  | none, f => f

/-- Strict `<` between possibly-missing values: any comparison involving
a missing value is `false` (pandas NaN semantics). -/
def oltB : Option ℚ → Option ℚ → Bool
  | some a, some b => decide (a < b)
  | _, _ => false

/-- Step 1 per-row fills: `Size` by the mode, `Units_Sold` and `MRP` by
the medians, `Discount_Applied` by `0`, and `Order_Date` coercion. -/
def fillRow (sm : String) (uMed mMed : Option ℚ) (r : Row) : Row :=
  { r with Size := some (r.Size.getD sm),
           Units_Sold := fillO r.Units_Sold uMed,
           MRP := fillO r.MRP mMed,
           Discount_Applied := some (r.Discount_Applied.getD 0),
           Order_Date := coerceDate r.Order_Date }

/-- Step 1 date fill: `Order_Date.fillna(mode()[0])`. -/
def dateFillRow (dm : Nat) (r : Row) : Row :=
  { r with Order_Date := some (r.Order_Date.getD (DateVal.parsedD dm)) }

/-- Second half of step 1: `Order_Date.fillna(Order_Date.mode()[0])` on
the already-coerced dataset; the unconditional `mode()[0]` raises
(`KeyError`) when every date is missing. -/
def step1b (df1 : List Row) : Except String (List Row) :=
  match modeBy natLtB (df1.filterMap (fun r => dateNat r.Order_Date)) with
  | none => Except.error "Order_Date mode undefined"
  | some dm => Except.ok (df1.map (dateFillRow dm))

/-- Step 1 of `transform_data` (missing-value handling).  The script
evaluates `df["Size"].mode()[0]` and `df["Order_Date"].mode()[0]`
unconditionally; an empty mode raises (`KeyError`), modelled as
`Except.error`. -/
def step1 (df : List Row) : Except String (List Row) :=
  match modeBy strLtB (df.filterMap (fun r => r.Size)) with
  | none => Except.error "Size mode undefined"
  | some sm =>
    step1b (df.map (fillRow sm (medianQ (df.filterMap (fun r => r.Units_Sold)))
      (medianQ (df.filterMap (fun r => r.MRP)))))

/-- `drop_duplicates(subset='Order_ID', keep='first')`, accumulating the
keys already kept (pandas treats missing keys as equal to each other). -/
def dedupA (seen : List (Option String)) : List Row → List Row
  | [] => []
  | r :: rs =>
    if r.Order_ID ∈ seen then dedupA seen rs
    else r :: dedupA (r.Order_ID :: seen) rs

/-- Step 2 of `transform_data`: deduplication keeping first occurrence. -/
def dedupFirst (l : List Row) : List Row := dedupA [] l

/-- The fixed alias map applied by `Series.replace` in step 3. -/
def regionAlias (s : String) : String :=
  if s = "Bengaluru" then "Bangalore"
  else if s = "Hyd" then "Hyderabad"
  else if s = "Hyderbad" then "Hyderabad"
  else s

/-- Step 3 per row: trim, title-case, then alias-map the region. -/
def regionRow (r : Row) : Row :=
  { r with Region := r.Region.map (fun s => regionAlias (cleanStr s)) }

/-- `profit < 0` with pandas NaN semantics (`NaN < 0` is `False`). -/
def profitNeg : Option ℚ → Bool
  | some p => decide (p < 0)
  | none => false

/-- Step 4 per row: `Loss_Flag = Profit < 0`. -/
def lossRow (r : Row) : Row := { r with Loss_Flag := some (profitNeg r.Profit) }

/-- `units * mrp * (1 - discount/100)` with NaN propagation. -/
def revCalc : Option ℚ → Option ℚ → Option ℚ → Option ℚ
  | some u, some m, some d => some (u * m * (1 - d / 100))
  | _, _, _ => none

/-- Step 5 per row: absolute value of `Units_Sold`, then unconditional
revenue recomputation from the corrected fields. -/
def recalcRow (r : Row) : Row :=
  let u := r.Units_Sold.map (fun x => |x|)
  { r with Units_Sold := u, Revenue := revCalc u r.MRP r.Discount_Applied }

/-- Step 6 per row: trim + title-case `Product_Line` and
`Gender_Category`. -/
def stdRow (r : Row) : Row :=
  { r with Product_Line := r.Product_Line.map cleanStr,
           Gender_Category := r.Gender_Category.map cleanStr }

/-- Step 7: `pd.to_numeric(errors="coerce")` on the five numeric columns,
the identity on this typed model (see file header). -/
def numericRow (r : Row) : Row := r

/-- Step 8 bounds: `[Q1 - k*IQR, Q3 + k*IQR]` of the current revenue
column, `none` when the column has no non-missing value. -/
def outlierBounds (k : ℚ) (l : List Row) : Option ℚ × Option ℚ :=
  let revs := l.filterMap (fun r => r.Revenue)
  match quantileQ (1 / 4) revs, quantileQ (3 / 4) revs with
  | some q1, some q3 => (some (q1 - k * (q3 - q1)), some (q3 + k * (q3 - q1)))
  | _, _ => (none, none)

/-- Step 8: drop rows whose revenue is strictly below the lower bound or
strictly above the upper bound; comparisons with a missing value are
`false`, so rows with missing revenue are kept. -/
def outlierStep (k : ℚ) (l : List Row) : List Row :=
  let b := outlierBounds k l
  l.filter (fun r => !(oltB r.Revenue b.1 || oltB b.2 r.Revenue))

/-- `Units_Sold > 0` with pandas NaN semantics. -/
def unitsPosRow (r : Row) : Bool :=
  match r.Units_Sold with
  | some u => decide (0 < u)
  | none => false

/-- `Units_Sold <= 0` with pandas NaN semantics (used for the step 9 log
count, which differs from the rows actually dropped when `Units_Sold` is
missing). -/
def unitsNonpos (r : Row) : Bool :=
  match r.Units_Sold with
  | some u => decide (u ≤ 0)
  | none => false

/-- Step 10 per row: metadata stamping (`etl_version = '2.0'`). -/
def stampRow (r : Row) : Row := { r with etl_version := some "2.0" }

def nullC {α : Type} (o : Option α) : Nat := if o.isSome then 0 else 1

/-- `df.isnull().sum().sum()` over the modelled columns. -/
def rowNulls (r : Row) : Nat :=
  nullC r.Order_ID + nullC r.Order_Date + nullC r.Region + nullC r.Product_Line +
  nullC r.Gender_Category + nullC r.Size + nullC r.Units_Sold + nullC r.MRP +
  nullC r.Discount_Applied + nullC r.Profit + nullC r.Revenue + nullC r.Loss_Flag +
  nullC r.etl_version

def totalNulls (l : List Row) : Nat := (l.map rowNulls).sum

/-- The per-step counts the script writes to its log. -/
structure TransformStats where
  nullsFilled : Int
  duplicatesRemoved : Nat
  outliersRemoved : Nat
  zeroUnitsRemoved : Nat
deriving DecidableEq, Repr

/-- Steps 2 through 10 of `transform_data`, with the logged counts. -/
def restPipelineS (l1 : List Row) : List Row × (Nat × Nat × Nat) :=
  let l2 := dedupFirst l1
  let l3 := l2.map regionRow
  let l4 := l3.map lossRow
  let l5 := l4.map recalcRow
  let l6 := l5.map stdRow
  let l7 := l6.map numericRow
  let l8 := outlierStep OUTLIER_THRESHOLD l7
  let l9 := l8.filter unitsPosRow
  let l10 := l9.map stampRow
  (l10, (l1.length - l2.length, l7.length - l8.length, l8.countP unitsNonpos))

/-- `transform_data` from the script: the ten cleaning steps in order,
returning the cleaned dataset and the logged per-step counts, or the
first fatal error. -/
def transform_data (df : List Row) : Except String (List Row × TransformStats) :=
  match step1 df with
  | Except.error e => Except.error e
  | Except.ok l1 =>
    let p := restPipelineS l1
    Except.ok (p.1,
      { nullsFilled := (totalNulls df : Int) - (totalNulls l1 : Int),
        duplicatesRemoved := p.2.1,
        outliersRemoved := p.2.2.1,
        zeroUnitsRemoved := p.2.2.2 })

/-- Check 7 per row: `|Revenue - Units_Sold*MRP*(1-Discount/100)|`,
missing (and hence skipped by `max`) when any involved cell is missing. -/
def diffOf (r : Row) : Option ℚ :=
  match r.Revenue, r.Units_Sold, r.MRP, r.Discount_Applied with
  | some rev, some u, some m, some d => some |rev - u * m * (1 - d / 100)|
  | _, _, _, _ => none

/-- Check 1: no nulls in the critical columns. -/
def check1 (df : List Row) : Bool :=
  df.all (fun r =>
    r.Order_ID.isSome && r.Order_Date.isSome && r.Region.isSome && r.Product_Line.isSome)

/-- `not Series.duplicated().any()` (missing keys compare equal). -/
def noDupKeys : List (Option String) → Bool
  | [] => true
  | x :: xs => !(decide (x ∈ xs)) && noDupKeys xs

/-- Check 2: unique `Order_ID`s. -/
def check2 (df : List Row) : Bool := noDupKeys (df.map (fun r => r.Order_ID))

/-- Check 3: `df['Units_Sold'].min() > 0` (min skips missing values and
is NaN — failing the comparison — when there are none). -/
def check3 (df : List Row) : Bool :=
  match minQ (df.filterMap (fun r => r.Units_Sold)) with
  | some m => decide (0 < m)
  | none => false

/-- Check 4: `df['MRP'].min() > 0`. -/
def check4 (df : List Row) : Bool :=
  match minQ (df.filterMap (fun r => r.MRP)) with
  | some m => decide (0 < m)
  | none => false

/-- Check 5: every region value (a missing region counts as invalid,
since `NaN` appears in `unique()` and is not a valid region) lies in
`VALID_REGIONS`. -/
def check5 (df : List Row) : Bool :=
  df.all (fun r =>
    match r.Region with
    | some x => decide (x ∈ VALID_REGIONS)
    | none => false)

/-- Check 6: `Discount_Applied.between(0, 100).all()` (`between` is
`False` on a missing value). -/
def check6 (df : List Row) : Bool :=
  df.all (fun r =>
    match r.Discount_Applied with
    | some d => decide (0 ≤ d) && decide (d ≤ 100)
    | none => false)

/-- Check 7: the max of the non-missing revenue differences is below
`0.01`; NaN (no non-missing difference) fails the comparison. -/
def check7 (df : List Row) : Bool :=
  match maxQ (df.filterMap diffOf) with
  | some m => decide (m < 1 / 100)
  | none => false

/-- `validate_data` from the script: the seven assertions in order; the
first failing one raises (`Except.error`), otherwise the function
returns with no output.  The embedding is a pure function of the
dataset: the script body only reads `df`. -/
def validate_data (df : List Row) : Except String Unit :=
  if check1 df then
    if check2 df then
      if check3 df then
        if check4 df then
          if check5 df then
            if check6 df then
              if check7 df then Except.ok ()
              else Except.error "Revenue calculation mismatch"
            else Except.error "Discount out of range"
          else Except.error "Invalid regions found"
        else Except.error "Invalid MRP"
      else Except.error "Invalid Units_Sold"
    else Except.error "Duplicate Order_IDs found"
  else Except.error "Found nulls in critical columns"

end NikeETL

namespace NikeETL

/-! ### Basic helper lemmas -/

theorem oltB_none_left (b : Option ℚ) : oltB none b = false := by
  cases b <;> rfl

theorem oltB_none_right (a : Option ℚ) : oltB a none = false := by
  cases a <;> rfl

theorem mem_outlierStep_of_revenue_none {k : ℚ} {l : List Row} {r : Row}
    (hmem : r ∈ l) (hrev : r.Revenue = none) : r ∈ outlierStep k l := by
  unfold outlierStep
  refine List.mem_filter.mpr ⟨hmem, ?_⟩
  rw [hrev, oltB_none_left, oltB_none_right]
  rfl

theorem validate_ok_iff (df : List Row) :
    validate_data df = Except.ok () ↔
      (check1 df = true ∧ check2 df = true ∧ check3 df = true ∧ check4 df = true ∧
       check5 df = true ∧ check6 df = true ∧ check7 df = true) := by
  unfold validate_data
  cases h1 : check1 df <;> cases h2 : check2 df <;> cases h3 : check3 df <;>
    cases h4 : check4 df <;> cases h5 : check5 df <;> cases h6 : check6 df <;>
    cases h7 : check7 df <;> simp

end NikeETL

namespace NikeETL

/-! ### Structure of the transformed dataset -/

/-- The composition of the per-row maps of steps 3, 4, 5, 6, 7 and 10:
every output row is `postAll` of some row of the step-1 result. -/
def postAll (r : Row) : Row :=
  stampRow (numericRow (stdRow (recalcRow (lossRow (regionRow r)))))

theorem postAll_Order_ID (r : Row) : (postAll r).Order_ID = r.Order_ID := rfl

theorem postAll_Order_Date (r : Row) : (postAll r).Order_Date = r.Order_Date := rfl

theorem postAll_Size (r : Row) : (postAll r).Size = r.Size := rfl

theorem postAll_MRP (r : Row) : (postAll r).MRP = r.MRP := rfl

theorem postAll_Discount (r : Row) : (postAll r).Discount_Applied = r.Discount_Applied := rfl

theorem postAll_Profit (r : Row) : (postAll r).Profit = r.Profit := rfl

theorem postAll_Units (r : Row) :
    (postAll r).Units_Sold = r.Units_Sold.map (fun x => |x|) := rfl

theorem postAll_Loss_Flag (r : Row) :
    (postAll r).Loss_Flag = some (profitNeg r.Profit) := rfl

theorem postAll_Revenue (r : Row) :
    (postAll r).Revenue =
      revCalc (r.Units_Sold.map (fun x => |x|)) r.MRP r.Discount_Applied := rfl

theorem transform_destruct {df out : List Row} {s : TransformStats}
    (h : transform_data df = Except.ok (out, s)) :
    ∃ l1, step1 df = Except.ok l1 ∧ out = (restPipelineS l1).1 ∧
      s.nullsFilled = (totalNulls df : Int) - (totalNulls l1 : Int) ∧
      s.duplicatesRemoved = l1.length - (dedupFirst l1).length := by
  unfold transform_data at h
  cases hs : step1 df with
  | error e => rw [hs] at h; exact absurd h (by simp)
  | ok l1 =>
    rw [hs] at h
    refine ⟨l1, rfl, ?_⟩
    have h' := h
    simp only [Except.ok.injEq, Prod.mk.injEq] at h'
    obtain ⟨ho, hstat⟩ := h'
    subst hstat
    exact ⟨ho.symm, rfl, rfl⟩

theorem step1_destruct {df l1 : List Row} (h : step1 df = Except.ok l1) :
    ∃ sm uMed mMed dm,
      modeBy strLtB (df.filterMap (fun r => r.Size)) = some sm ∧
      uMed = medianQ (df.filterMap (fun r => r.Units_Sold)) ∧
      mMed = medianQ (df.filterMap (fun r => r.MRP)) ∧
      l1 = (df.map (fillRow sm uMed mMed)).map (dateFillRow dm) := by
  unfold step1 at h
  cases hm : modeBy strLtB (df.filterMap (fun r => r.Size)) with
  | none => rw [hm] at h; exact absurd h (by simp)
  | some sm =>
    rw [hm] at h
    dsimp only at h
    unfold step1b at h
    cases hd : modeBy natLtB
        (((df.map (fillRow sm (medianQ (df.filterMap (fun r => r.Units_Sold)))
          (medianQ (df.filterMap (fun r => r.MRP))))).filterMap
            (fun r => dateNat r.Order_Date))) with
    | none => rw [hd] at h; exact absurd h (by simp)
    | some dm =>
      rw [hd] at h
      simp only [Except.ok.injEq] at h
      exact ⟨sm, _, _, dm, rfl, rfl, rfl, h.symm⟩

end NikeETL

namespace NikeETL

theorem fillRow_MRP (sm : String) (uM mM : Option ℚ) (r : Row) :
    (fillRow sm uM mM r).MRP = fillO r.MRP mM := rfl

theorem fillRow_Units (sm : String) (uM mM : Option ℚ) (r : Row) :
    (fillRow sm uM mM r).Units_Sold = fillO r.Units_Sold uM := rfl

theorem dateFillRow_MRP (dm : Nat) (r : Row) : (dateFillRow dm r).MRP = r.MRP := rfl

theorem dateFillRow_Order_ID (dm : Nat) (r : Row) :
    (dateFillRow dm r).Order_ID = r.Order_ID := rfl

theorem fillRow_Order_ID (sm : String) (uM mM : Option ℚ) (r : Row) :
    (fillRow sm uM mM r).Order_ID = r.Order_ID := rfl

theorem unitsPosRow_stampRow (r : Row) : unitsPosRow (stampRow r) = unitsPosRow r := rfl

theorem coerceDate_shape (o : Option DateVal) :
    coerceDate o = none ∨ ∃ k, coerceDate o = some (DateVal.parsedD k) := by
  match o with
  | none => exact Or.inl rfl
  | some (DateVal.parsedD n) => exact Or.inr ⟨n, rfl⟩
  | some (DateVal.rawD s) =>
    cases hp : parseDate s with
    | none => left; simp [coerceDate, hp]
    | some k => right; exact ⟨k, by simp [coerceDate, hp]⟩

theorem step1_row_facts {df l1 : List Row} (h : step1 df = Except.ok l1) :
    ∀ r ∈ l1, r.Size.isSome = true ∧ r.Discount_Applied.isSome = true ∧
      ∃ n, r.Order_Date = some (DateVal.parsedD n) := by
  obtain ⟨sm, uM, mM, dm, _, _, _, hl⟩ := step1_destruct h
  subst hl
  intro r hr
  obtain ⟨r1, hr1, hfill⟩ := List.mem_map.mp hr
  obtain ⟨r0, _, hf0⟩ := List.mem_map.mp hr1
  subst hfill
  subst hf0
  refine ⟨rfl, rfl, ?_⟩
  show ∃ n, some ((coerceDate r0.Order_Date).getD (DateVal.parsedD dm)) =
    some (DateVal.parsedD n)
  rcases coerceDate_shape r0.Order_Date with hc | ⟨k, hc⟩
  · exact ⟨dm, by rw [hc]; rfl⟩
  · exact ⟨k, by rw [hc]; rfl⟩

theorem insertQ_ne_nil (x : ℚ) (l : List ℚ) : insertQ x l ≠ [] := by
  cases l with
  | nil => simp [insertQ]
  | cons y ys =>
    unfold insertQ
    by_cases hxy : x ≤ y <;> simp [hxy]

theorem sortQ_eq_nil_iff (l : List ℚ) : sortQ l = [] ↔ l = [] := by
  cases l with
  | nil => simp [sortQ]
  | cons x xs =>
    simp only [sortQ]
    constructor
    · intro h; exact absurd h (insertQ_ne_nil x (sortQ xs))
    · intro h; exact absurd h (by simp)

theorem quantileQ_eq_none_iff (q : ℚ) (l : List ℚ) : quantileQ q l = none ↔ l = [] := by
  unfold quantileQ
  by_cases h : (sortQ l).length = 0
  · simp only [h, if_true]
    rw [List.length_eq_zero] at h
    simp [(sortQ_eq_nil_iff l).mp h]
  · simp only [h, if_false]
    rw [List.length_eq_zero] at h
    constructor
    · intro hc; exact absurd hc (by simp)
    · intro hl; subst hl; exact absurd (by simp [sortQ]) h

theorem step1_mrp_dichotomy {df l1 : List Row} (h : step1 df = Except.ok l1) :
    (∀ r ∈ l1, r.MRP.isSome = true) ∨ (∀ r ∈ l1, r.MRP = none) := by
  obtain ⟨sm, uM, mM, dm, _, _, hmM, hl⟩ := step1_destruct h
  subst hl
  cases hm : mM with
  | some v =>
    left
    intro r hr
    obtain ⟨r1, hr1, hfill⟩ := List.mem_map.mp hr
    obtain ⟨r0, _, hf0⟩ := List.mem_map.mp hr1
    subst hfill; subst hf0
    rw [dateFillRow_MRP, fillRow_MRP]
    cases r0.MRP <;> simp [fillO, hm]
  | none =>
    right
    rw [hm] at hmM
    have hnil : df.filterMap (fun r => r.MRP) = [] :=
      (quantileQ_eq_none_iff _ _).mp hmM.symm
    have hall : ∀ r ∈ df, r.MRP = none := by
      intro r hr
      by_contra hne
      obtain ⟨v, hv⟩ := Option.ne_none_iff_exists'.mp hne
      have : v ∈ df.filterMap (fun r => r.MRP) :=
        List.mem_filterMap.mpr ⟨r, hr, hv⟩
      rw [hnil] at this
      exact absurd this (by simp)
    intro r hr
    obtain ⟨r1, hr1, hfill⟩ := List.mem_map.mp hr
    obtain ⟨r0, hr0, hf0⟩ := List.mem_map.mp hr1
    subst hfill; subst hf0
    rw [dateFillRow_MRP, fillRow_MRP, hall r0 hr0]
    rfl

end NikeETL

namespace NikeETL

theorem dedupA_subset : ∀ (l : List Row) (seen : List (Option String)) (r : Row),
    r ∈ dedupA seen l → r ∈ l := by
  intro l
  induction l with
  | nil => intro seen r h; exact absurd h (by simp [dedupA])
  | cons a as ih =>
    intro seen r h
    unfold dedupA at h
    by_cases ha : a.Order_ID ∈ seen
    · rw [if_pos ha] at h
      exact List.mem_cons_of_mem a (ih seen r h)
    · rw [if_neg ha] at h
      rcases List.mem_cons.mp h with h1 | h2
      · exact h1 ▸ List.mem_cons_self a as
      · exact List.mem_cons_of_mem a (ih _ r h2)

theorem mem_restPipeline {l1 : List Row} {r : Row} (h : r ∈ (restPipelineS l1).1) :
    ∃ r1 ∈ l1, r = postAll r1 ∧ unitsPosRow r = true := by
  unfold restPipelineS at h
  dsimp only at h
  obtain ⟨r9, h9, hst⟩ := List.mem_map.mp h
  obtain ⟨h8, hpos⟩ := List.mem_filter.mp h9
  have h7 : r9 ∈ (((((dedupFirst l1).map regionRow).map lossRow).map
      recalcRow).map stdRow).map numericRow := by
    unfold outlierStep at h8
    exact (List.mem_filter.mp h8).1
  obtain ⟨r6, h6, he6⟩ := List.mem_map.mp h7
  obtain ⟨r5, h5, he5⟩ := List.mem_map.mp h6
  obtain ⟨r4, h4, he4⟩ := List.mem_map.mp h5
  obtain ⟨r3, h3, he3⟩ := List.mem_map.mp h4
  obtain ⟨r2, h2, he2⟩ := List.mem_map.mp h3
  have hr2 : r2 ∈ l1 := dedupA_subset _ _ _ h2
  refine ⟨r2, hr2, ?_, ?_⟩
  · subst hst he6 he5 he4 he3 he2; rfl
  · subst hst; rw [unitsPosRow_stampRow]; exact hpos

theorem mem_transform_out {df out : List Row} {s : TransformStats}
    (h : transform_data df = Except.ok (out, s)) :
    ∃ l1, step1 df = Except.ok l1 ∧
      ∀ r ∈ out, ∃ r1 ∈ l1, r = postAll r1 ∧ unitsPosRow r = true := by
  obtain ⟨l1, hs, ho, _, _⟩ := transform_destruct h
  exact ⟨l1, hs, fun r hr => mem_restPipeline (ho ▸ hr)⟩

end NikeETL

namespace NikeETL

theorem minQ_eq_none_iff (l : List ℚ) : minQ l = none ↔ l = [] := by
  cases l with
  | nil => simp [minQ]
  | cons x xs =>
    simp only [minQ]
    cases minQ xs <;> simp

theorem minQ_le : ∀ (l : List ℚ) (m : ℚ), minQ l = some m → ∀ x ∈ l, m ≤ x := by
  intro l
  induction l with
  | nil => intro m h; exact absurd h (by simp [minQ])
  | cons x xs ih =>
    intro m h y hy
    rcases hm : minQ xs with _ | m'
    · rw [(minQ_eq_none_iff xs).mp hm] at hy
      simp only [minQ, hm] at h
      rcases List.mem_cons.mp hy with h1 | h1
      · subst h1
        rw [Option.some.injEq] at h
        exact h ▸ le_refl y
      · exact absurd h1 (by simp)
    · simp only [minQ, hm] at h
      rw [Option.some.injEq] at h
      subst h
      rcases List.mem_cons.mp hy with h1 | h1
      · subst h1; exact min_le_left _ _
      · exact le_trans (min_le_right x m') (ih m' hm y h1)

theorem noDupKeys_iff (l : List (Option String)) : noDupKeys l = true ↔ l.Nodup := by
  induction l with
  | nil => simp [noDupKeys]
  | cons x xs ih =>
    simp only [noDupKeys, Bool.and_eq_true, Bool.not_eq_true', decide_eq_false_iff_not,
      List.nodup_cons]
    rw [ih]

theorem dedupA_keys : ∀ (l : List Row) (seen : List (Option String)),
    ((dedupA seen l).map (fun r => r.Order_ID)).Nodup ∧
      ∀ k ∈ (dedupA seen l).map (fun r => r.Order_ID), k ∉ seen := by
  intro l
  induction l with
  | nil => intro seen; exact ⟨by simp [dedupA], by simp [dedupA]⟩
  | cons a as ih =>
    intro seen
    unfold dedupA
    by_cases ha : a.Order_ID ∈ seen
    · rw [if_pos ha]; exact ih seen
    · rw [if_neg ha]
      obtain ⟨nd, hseen⟩ := ih (a.Order_ID :: seen)
      constructor
      · rw [List.map_cons, List.nodup_cons]
        refine ⟨fun hmem => ?_, nd⟩
        exact hseen _ hmem (List.mem_cons_self _ _)
      · intro k hk
        rw [List.map_cons] at hk
        rcases List.mem_cons.mp hk with h1 | h1
        · subst h1; exact ha
        · intro hks
          exact hseen k h1 (List.mem_cons_of_mem _ hks)

theorem dedupA_eq_self : ∀ (l : List Row) (seen : List (Option String)),
    (l.map (fun r => r.Order_ID)).Nodup → (∀ r ∈ l, r.Order_ID ∉ seen) →
    dedupA seen l = l := by
  intro l
  induction l with
  | nil => intro seen _ _; rfl
  | cons a as ih =>
    intro seen hnd hs
    unfold dedupA
    rw [if_neg (hs a (List.mem_cons_self a as))]
    rw [List.map_cons, List.nodup_cons] at hnd
    congr 1
    refine ih _ hnd.2 ?_
    intro r hr hmem
    rcases List.mem_cons.mp hmem with h1 | h1
    · exact hnd.1 (h1 ▸ List.mem_map.mpr ⟨r, hr, rfl⟩)
    · exact hs r (List.mem_cons_of_mem a hr) h1

theorem out_keys_nodup {df out : List Row} {s : TransformStats}
    (h : transform_data df = Except.ok (out, s)) :
    (out.map (fun r => r.Order_ID)).Nodup := by
  obtain ⟨l1, _, ho, _, _⟩ := transform_destruct h
  subst ho
  unfold restPipelineS
  dsimp only
  rw [List.map_map]
  have hstamp : ((fun r => r.Order_ID) ∘ stampRow) = fun (r : Row) => r.Order_ID := rfl
  rw [hstamp]
  have hfil : ∀ (p : Row → Bool) (l : List Row),
      (l.map (fun r => r.Order_ID)).Nodup →
      ((l.filter p).map (fun r => r.Order_ID)).Nodup := by
    intro p l hl
    exact List.Nodup.sublist (List.Sublist.map _ (List.filter_sublist l)) hl
  apply hfil
  unfold outlierStep
  apply hfil
  rw [List.map_map, List.map_map, List.map_map, List.map_map, List.map_map]
  exact (dedupA_keys l1 []).1

end NikeETL

namespace NikeETL

/-- Row predicate: `Order_ID` equals the given key. -/
def keyEqB (v : Option String) (r : Row) : Bool := decide (r.Order_ID = v)

theorem dedupA_filter_of_mem_seen : ∀ (l : List Row) (seen : List (Option String))
    (v : Option String), v ∈ seen → (dedupA seen l).filter (keyEqB v) = [] := by
  intro l
  induction l with
  | nil => intro seen v _; rfl
  | cons a as ih =>
    intro seen v hv
    unfold dedupA
    by_cases ha : a.Order_ID ∈ seen
    · rw [if_pos ha]; exact ih seen v hv
    · rw [if_neg ha]
      have hne : keyEqB v a = false := by
        simp only [keyEqB, decide_eq_false_iff_not]
        intro he; exact ha (he ▸ hv)
      rw [List.filter_cons]
      simp only [hne, Bool.false_eq_true, if_false]
      exact ih _ v (List.mem_cons_of_mem _ hv)

theorem dedupA_filter_of_not_seen : ∀ (l : List Row) (seen : List (Option String))
    (v : Option String), v ∉ seen →
    (dedupA seen l).filter (keyEqB v) = (l.filter (keyEqB v)).take 1 := by
  intro l
  induction l with
  | nil => intro seen v _; rfl
  | cons a as ih =>
    intro seen v hv
    unfold dedupA
    by_cases ha : a.Order_ID ∈ seen
    · rw [if_pos ha]
      have hne : keyEqB v a = false := by
        simp only [keyEqB, decide_eq_false_iff_not]
        intro he; exact hv (he ▸ ha)
      rw [ih seen v hv, List.filter_cons]
      simp only [hne, Bool.false_eq_true, if_false]
    · rw [if_neg ha]
      by_cases hk : a.Order_ID = v
      · have hpa : keyEqB v a = true := by simp [keyEqB, hk]
        rw [List.filter_cons, List.filter_cons]
        simp only [hpa, if_true]
        rw [dedupA_filter_of_mem_seen as _ v (hk ▸ List.mem_cons_self _ _)]
        simp
      · have hpa : keyEqB v a = false := by simp [keyEqB, hk]
        rw [List.filter_cons, List.filter_cons]
        simp only [hpa, Bool.false_eq_true, if_false]
        refine ih _ v ?_
        intro hm
        rcases List.mem_cons.mp hm with h1 | h1
        · exact hk h1.symm
        · exact hv h1

theorem filter_key_length_le_one : ∀ (l : List Row) (v : Option String),
    (l.map (fun r => r.Order_ID)).Nodup → (l.filter (keyEqB v)).length ≤ 1 := by
  intro l
  induction l with
  | nil => intro v _; simp
  | cons a as ih =>
    intro v hnd
    rw [List.map_cons, List.nodup_cons] at hnd
    rw [List.filter_cons]
    by_cases hpa : keyEqB v a = true
    · simp only [hpa, if_true]
      have hfil : as.filter (keyEqB v) = [] := by
        rw [List.filter_eq_nil_iff]
        intro r hr hkr
        apply hnd.1
        have h1 : r.Order_ID = v := of_decide_eq_true hkr
        have h2 : a.Order_ID = v := of_decide_eq_true hpa
        rw [h2, ← h1]
        exact List.mem_map.mpr ⟨r, hr, rfl⟩
      rw [hfil]
      simp
    · rw [Bool.not_eq_true] at hpa
      simp only [hpa, Bool.false_eq_true, if_false]
      exact ih v hnd.2

end NikeETL

namespace NikeETL

/-! ### Concrete datasets used by witnesses and counterexamples -/

/-- A well-formed raw row: alias region, parseable date, stale revenue. -/
def rGood : Row :=
  { Order_ID := some "A1", Order_Date := some (DateVal.rawD "2024-01-02"),
    Region := some " bengaluru ", Product_Line := some " shoes ",
    Gender_Category := some "men", Size := some "M",
    Units_Sold := some 5, MRP := some 100, Discount_Applied := some 10,
    Profit := some (-5), Revenue := some 777, Loss_Flag := none, etl_version := none }

def rawGood : List Row := [rGood]

/-- The cleaned form of `rGood` (checked by evaluation). -/
def cleanedGood : Row :=
  { Order_ID := some "A1", Order_Date := some (DateVal.parsedD 20240102),
    Region := some "Bangalore", Product_Line := some "Shoes",
    Gender_Category := some "Men", Size := some "M",
    Units_Sold := some 5, MRP := some 100, Discount_Applied := some 10,
    Profit := some (-5), Revenue := some 450, Loss_Flag := some true,
    etl_version := some "2.0" }

def outGood : List Row := [cleanedGood]

def statsGood : TransformStats :=
  { nullsFilled := 0, duplicatesRemoved := 0, outliersRemoved := 0, zeroUnitsRemoved := 0 }

theorem transform_rawGood : transform_data rawGood = Except.ok (outGood, statsGood) := by
  decide

/-! ### C3 -/

/-- C3: `validate_data` raises an error if and only if at least one of
its seven checks (non-null critical columns, unique `Order_ID`,
`Units_Sold > 0`, `MRP > 0`, canonical regions, discount in `[0, 100]`,
revenue consistency) fails on its input; when all seven hold it returns
with no output.  The embedding of `validate_data` is a pure function of
the dataset — the script's body only reads `df`, so it can neither
mutate nor drop a row, matching the read-only part of the claim by
construction. -/
theorem c3_validate_ok_iff_checks (df : List Row) :
    validate_data df = Except.ok () ↔
      (check1 df = true ∧ check2 df = true ∧ check3 df = true ∧ check4 df = true ∧
       check5 df = true ∧ check6 df = true ∧ check7 df = true) :=
  validate_ok_iff df

/-! ### C5 -/

/-- C5: on any input dataset in which every `Order_Date` value fails to
parse (coerces to missing), `transform_data` raises an error: the mode
of the coerced date column is undefined and the subscript raises,
aborting the run. -/
theorem c5_all_dates_unparsable_aborts (df : List Row)
    (h : ∀ r ∈ df, coerceDate r.Order_Date = none) :
    ∃ e, transform_data df = Except.error e := by
  unfold transform_data
  cases hs : step1 df with
  | error e => exact ⟨e, rfl⟩
  | ok l1 =>
    exfalso
    unfold step1 at hs
    cases hm : modeBy strLtB (df.filterMap (fun r => r.Size)) with
    | none => rw [hm] at hs; exact absurd hs (by simp)
    | some sm =>
      rw [hm] at hs
      dsimp only at hs
      unfold step1b at hs
      have hnil : ((df.map (fillRow sm (medianQ (df.filterMap (fun r => r.Units_Sold)))
          (medianQ (df.filterMap (fun r => r.MRP))))).filterMap
            (fun r => dateNat r.Order_Date)) = [] := by
        rw [List.filterMap_map]
        rw [List.filterMap_eq_nil_iff]
        intro r hr
        show dateNat (fillRow _ _ _ r).Order_Date = none
        have : (fillRow sm (medianQ (df.filterMap (fun r => r.Units_Sold)))
            (medianQ (df.filterMap (fun r => r.MRP))) r).Order_Date =
            coerceDate r.Order_Date := rfl
        rw [this, h r hr]
        rfl
      rw [hnil] at hs
      exact absurd hs (by simp [modeBy])

/-- A row whose `Order_Date` does not parse. -/
def rNoDate : Row := { rGood with Order_Date := some (DateVal.rawD "not a date") }

def dfNoDate : List Row := [rNoDate]

/-- Witness for C5 at a concrete dataset. -/
theorem c5_witness :
    (∀ r ∈ dfNoDate, coerceDate r.Order_Date = none) ∧
      ∃ e, transform_data dfNoDate = Except.error e :=
  ⟨by decide, c5_all_dates_unparsable_aborts dfNoDate (by decide)⟩

/-! ### C9 -/

/-- C9: the statistical outlier-removal step never drops a row whose
revenue is missing at that point — the filter only removes rows whose
revenue compares strictly below the lower or strictly above the upper
bound, and a missing revenue satisfies neither comparison. -/
theorem c9_outlier_keeps_missing_revenue (k : ℚ) (l : List Row) (r : Row)
    (hmem : r ∈ l) (hrev : r.Revenue = none) : r ∈ outlierStep k l :=
  mem_outlierStep_of_revenue_none hmem hrev

/-- A cleaned-shape row with missing revenue. -/
def rRevNone : Row := { rGood with MRP := none, Revenue := none }

/-- Witness for C9 at a concrete list. -/
theorem c9_witness :
    rRevNone ∈ [rGood, rRevNone] ∧ rRevNone.Revenue = none ∧
      rRevNone ∈ outlierStep OUTLIER_THRESHOLD [rGood, rRevNone] :=
  ⟨by decide, rfl,
    c9_outlier_keeps_missing_revenue OUTLIER_THRESHOLD [rGood, rRevNone] rRevNone
      (by decide) rfl⟩

/-! ### C4 -/

/-- C4: whenever the pipeline completes (`transform_data` returns a
dataset and `validate_data` passes on it), every output row has a
non-null `Order_ID` and no two output rows share an `Order_ID`. -/
theorem c4_output_ids_unique (raw out : List Row) (s : TransformStats)
    (_h1 : transform_data raw = Except.ok (out, s))
    (h2 : validate_data out = Except.ok ()) :
    (∀ r ∈ out, r.Order_ID ≠ none) ∧ (out.map (fun r => r.Order_ID)).Nodup := by
  obtain ⟨c1, c2, _⟩ := (validate_ok_iff out).mp h2
  constructor
  · intro r hr hnone
    have hall := List.all_eq_true.mp c1 r hr
    simp only [Bool.and_eq_true] at hall
    have hid := hall.1.1.1
    rw [hnone] at hid
    exact absurd hid (by simp)
  · exact (noDupKeys_iff _).mp c2

/-- Witness for C4 at a concrete successful pipeline run. -/
theorem c4_witness :
    transform_data rawGood = Except.ok (outGood, statsGood) ∧
      validate_data outGood = Except.ok () ∧
      ((∀ r ∈ outGood, r.Order_ID ≠ none) ∧
        (outGood.map (fun r => r.Order_ID)).Nodup) :=
  ⟨by decide, by decide,
    c4_output_ids_unique rawGood outGood statsGood (by decide) (by decide)⟩

end NikeETL

namespace NikeETL

/-! ### C10 -/

/-- C10: every output row of `transform_data` carries a defined boolean
`Loss_Flag`, and a row whose `Profit` is missing gets
`Loss_Flag = false` — the flag is exactly the truth value of
`Profit < 0` under pandas NaN semantics. -/
theorem c10_loss_flag_defined (raw out : List Row) (s : TransformStats)
    (h : transform_data raw = Except.ok (out, s)) :
    ∀ r ∈ out, (∃ b, r.Loss_Flag = some b) ∧
      (r.Profit = none → r.Loss_Flag = some false) := by
  obtain ⟨l1, _, hmem⟩ := mem_transform_out h
  intro r hr
  obtain ⟨r1, _, heq, _⟩ := hmem r hr
  subst heq
  refine ⟨⟨profitNeg r1.Profit, postAll_Loss_Flag r1⟩, ?_⟩
  intro hp
  rw [postAll_Profit] at hp
  rw [postAll_Loss_Flag, hp]
  rfl

/-- A raw row with missing profit. -/
def rNP : Row := { rGood with Profit := none }

def rawNP : List Row := [rNP]

def cleanedNP : Row := { cleanedGood with Profit := none, Loss_Flag := some false }

def outNP : List Row := [cleanedNP]

/-- Witness for C10 at a concrete run with missing profit. -/
theorem c10_witness :
    transform_data rawNP = Except.ok (outNP, statsGood) ∧
      ∀ r ∈ outNP, (∃ b, r.Loss_Flag = some b) ∧
        (r.Profit = none → r.Loss_Flag = some false) :=
  ⟨by decide, c10_loss_flag_defined rawNP outNP statsGood (by decide)⟩

/-! ### C2 -/

/-- C2 (amended): for every output row of `transform_data` whose
`Units_Sold`, `MRP` and `Discount_Applied` are all non-null, the
`Revenue` field equals `Units_Sold * MRP * (1 - Discount/100)`
recomputed from the row's final values, so the difference is `0`, within
the `0.01` tolerance.  (The unamended claim fails for rows whose `MRP`
is still missing after imputation: their recomputed `Revenue` is
missing, see the counterexample.) -/
theorem c2_revenue_formula_amended (raw out : List Row) (s : TransformStats)
    (h : transform_data raw = Except.ok (out, s)) :
    ∀ r ∈ out, ∀ u m d, r.Units_Sold = some u → r.MRP = some m →
      r.Discount_Applied = some d →
      ∃ rev, r.Revenue = some rev ∧ |rev - u * m * (1 - d / 100)| < 1 / 100 := by
  obtain ⟨l1, _, hmem⟩ := mem_transform_out h
  intro r hr u m d hu hm hd
  obtain ⟨r1, _, heq, _⟩ := hmem r hr
  subst heq
  rw [postAll_Units] at hu
  rw [postAll_MRP] at hm
  rw [postAll_Discount] at hd
  refine ⟨u * m * (1 - d / 100), ?_, ?_⟩
  · rw [postAll_Revenue, hu, hm, hd]
    rfl
  · rw [sub_self, abs_zero]
    norm_num

/-- A raw row whose `MRP` is missing (and is the only row, so the
median is undefined and the value stays missing). -/
def rMRPNone : Row :=
  { rGood with
    MRP := none, Discount_Applied := some 0, Revenue := none }

def dfMRPNone : List Row := [rMRPNone]

/-- Counterexample to C2 as stated: `transform_data` returns normally on
`dfMRPNone`, the surviving row has a missing (null) `Revenue`, and the
per-row tolerance predicate `|Revenue - U*M*(1-D/100)| < 0.01` (false on
missing values, as in the validator's check) does not hold for it. -/
theorem c2_counterexample :
    Except.map (fun p => p.1.map (fun r =>
      (r.Revenue, match diffOf r with
        | some m => decide (m < 1 / 100)
        | none => false)))
      (transform_data dfMRPNone) = Except.ok [(none, false)] := by
  decide

/-- Witness for C2 (amended) at a concrete run. -/
theorem c2_witness :
    transform_data rawGood = Except.ok (outGood, statsGood) ∧
      ∃ rev, cleanedGood.Revenue = some rev ∧
        |rev - 5 * 100 * (1 - 10 / 100)| < 1 / 100 :=
  ⟨by decide,
    c2_revenue_formula_amended rawGood outGood statsGood (by decide) cleanedGood
      (by decide) 5 100 10 rfl rfl rfl⟩

/-! ### C1 -/

/-- C1 (amended): the Transformer alone establishes `Units_Sold > 0` on
every row it returns, but it does not establish `MRP > 0` nor
`Discount_Applied ∈ [0, 100]` (see the counterexample); those two
invariants hold for every output row exactly when the Validator also
passes on the output. -/
theorem c1_transformer_bounds_amended (raw out : List Row) (s : TransformStats)
    (h : transform_data raw = Except.ok (out, s)) :
    (∀ r ∈ out, unitsPosRow r = true) ∧
      (validate_data out = Except.ok () →
        ∀ r ∈ out, (∃ m, r.MRP = some m ∧ 0 < m) ∧
          (∃ d, r.Discount_Applied = some d ∧ 0 ≤ d ∧ d ≤ 100)) := by
  obtain ⟨l1, hs1, hmem⟩ := mem_transform_out h
  constructor
  · intro r hr
    obtain ⟨r1, _, _, hpos⟩ := hmem r hr
    exact hpos
  · intro hv r hr
    obtain ⟨_, _, _, c4, _, c6, _⟩ := (validate_ok_iff out).mp hv
    constructor
    · rcases step1_mrp_dichotomy hs1 with hall | hnone
      · obtain ⟨r1, hr1, heq, _⟩ := hmem r hr
        have hRM : r.MRP = r1.MRP := by rw [heq, postAll_MRP]
        obtain ⟨m, hm⟩ := Option.isSome_iff_exists.mp (hall r1 hr1)
        unfold check4 at c4
        cases hmin : minQ (out.filterMap (fun r => r.MRP)) with
        | none => rw [hmin] at c4; exact absurd c4 (by simp)
        | some m0 =>
          rw [hmin] at c4
          have hm0 : (0 : ℚ) < m0 := of_decide_eq_true c4
          have hmm : m ∈ out.filterMap (fun r => r.MRP) :=
            List.mem_filterMap.mpr ⟨r, hr, by rw [hRM, hm]⟩
          exact ⟨m, by rw [hRM, hm],
            lt_of_lt_of_le hm0 (minQ_le _ _ hmin m hmm)⟩
      · exfalso
        have hnil : out.filterMap (fun r => r.MRP) = [] := by
          rw [List.filterMap_eq_nil_iff]
          intro r' hr'
          obtain ⟨r1, hr1, heq, _⟩ := hmem r' hr'
          show r'.MRP = none
          rw [heq, postAll_MRP]
          exact hnone r1 hr1
        unfold check4 at c4
        rw [hnil] at c4
        exact absurd c4 (by simp [minQ])
    · unfold check6 at c6
      have hall6 := List.all_eq_true.mp c6 r hr
      cases hD : r.Discount_Applied with
      | none => rw [hD] at hall6; exact absurd hall6 (by simp)
      | some d =>
        rw [hD] at hall6
        simp only [Bool.and_eq_true, decide_eq_true_eq] at hall6
        exact ⟨d, rfl, hall6.1, hall6.2⟩

/-- A raw row with negative `MRP` and out-of-range discount; the
Transformer corrects neither. -/
def rBad1 : Row :=
  { rGood with
    Order_ID := some "B1", Region := some "Mumbai",
    MRP := some (-100), Discount_Applied := some 150,
    Profit := some 0, Revenue := none }

def dfBad1 : List Row := [rBad1]

/-- Counterexample to C1 as stated: `transform_data` returns normally on
`dfBad1` and its output row has `MRP = -100 < 0` and
`Discount_Applied = 150 ∉ [0, 100]`; only the `Units_Sold > 0` part of
the claimed conjunction survives. -/
theorem c1_counterexample :
    Except.map (fun p => p.1.map (fun r =>
      (r.MRP, r.Discount_Applied, unitsPosRow r)))
      (transform_data dfBad1) = Except.ok [(some (-100), some 150, true)] := by
  decide

/-- Witness for C1 (amended) at a concrete run. -/
theorem c1_witness :
    transform_data rawGood = Except.ok (outGood, statsGood) ∧
      ((∀ r ∈ outGood, unitsPosRow r = true) ∧
        (validate_data outGood = Except.ok () →
          ∀ r ∈ outGood, (∃ m, r.MRP = some m ∧ 0 < m) ∧
            (∃ d, r.Discount_Applied = some d ∧ 0 ≤ d ∧ d ≤ 100))) :=
  ⟨by decide, c1_transformer_bounds_amended rawGood outGood statsGood (by decide)⟩

end NikeETL

namespace NikeETL

/-! ### C8 -/

theorem filter_key_map_len : ∀ (l : List Row) (f : Row → Row),
    (∀ r, (f r).Order_ID = r.Order_ID) → ∀ v : Option String,
    ((l.map f).filter (keyEqB v)).length = (l.filter (keyEqB v)).length := by
  intro l f hf v
  induction l with
  | nil => rfl
  | cons a as ih =>
    rw [List.map_cons, List.filter_cons, List.filter_cons]
    have hk : keyEqB v (f a) = keyEqB v a := by
      unfold keyEqB
      rw [hf a]
    rw [hk]
    cases keyEqB v a with
    | true => simp only [if_true, List.length_cons, ih]
    | false => simp only [Bool.false_eq_true, if_false, ih]

/-- C8 (amended): on an input with exactly two rows keyed `"X"`, the
deduplication step of the Transformer keeps exactly the
first-encountered `"X"` row of its input and drops the second
(independently of any other field values), and the final output contains
at most one `"X"` row; the first row's cleaned version is however not
guaranteed to survive the later outlier and non-positive-units filters
(see the counterexample), so the final output may contain no `"X"`
row. -/
theorem c8_dedup_keeps_first_amended (df out : List Row) (s : TransformStats)
    (h : transform_data df = Except.ok (out, s))
    (h2 : (df.filter (keyEqB (some "X"))).length = 2) :
    ∀ l1, step1 df = Except.ok l1 →
      ((dedupFirst l1).filter (keyEqB (some "X")) =
          (l1.filter (keyEqB (some "X"))).take 1 ∧
        (l1.filter (keyEqB (some "X"))).length = 2 ∧
        (out.filter (keyEqB (some "X"))).length ≤ 1) := by
  intro l1 hs1
  refine ⟨?_, ?_, ?_⟩
  · exact dedupA_filter_of_not_seen l1 [] (some "X") (by simp)
  · obtain ⟨sm, uM, mM, dm, _, _, _, hl⟩ := step1_destruct hs1
    subst hl
    rw [filter_key_map_len _ _ (dateFillRow_Order_ID dm),
      filter_key_map_len _ _ (fillRow_Order_ID sm uM mM)]
    exact h2
  · exact filter_key_length_le_one out (some "X") (out_keys_nodup h)

/-- First-encountered `"X"` row, well-formed. -/
def rXfirst : Row := { rGood with Order_ID := some "X", Units_Sold := some 3 }

/-- Second `"X"` row with a differing payload. -/
def rXsecond : Row := { rGood with Order_ID := some "X", Units_Sold := some 7 }

def dfX : List Row := [rXfirst, rXsecond]

/-- `dfX` after step 1 (only the dates change). -/
def l1X : List Row :=
  [{ rXfirst with Order_Date := some (DateVal.parsedD 20240102) },
   { rXsecond with Order_Date := some (DateVal.parsedD 20240102) }]

/-- The cleaned form of `rXfirst`. -/
def cleanedX : Row :=
  { cleanedGood with Order_ID := some "X", Units_Sold := some 3, Revenue := some 270 }

def outX : List Row := [cleanedX]

def statsX : TransformStats :=
  { nullsFilled := 0, duplicatesRemoved := 1, outliersRemoved := 0, zeroUnitsRemoved := 0 }

/-- Witness for C8 (amended) at a concrete run with two `"X"` rows. -/
theorem c8_witness :
    transform_data dfX = Except.ok (outX, statsX) ∧
      (dfX.filter (keyEqB (some "X"))).length = 2 ∧
      step1 dfX = Except.ok l1X ∧
      ((dedupFirst l1X).filter (keyEqB (some "X")) =
          (l1X.filter (keyEqB (some "X"))).take 1 ∧
        (l1X.filter (keyEqB (some "X"))).length = 2 ∧
        (outX.filter (keyEqB (some "X"))).length ≤ 1) :=
  ⟨by decide, by decide, by decide,
    c8_dedup_keeps_first_amended dfX outX statsX (by decide) (by decide) l1X (by decide)⟩

/-- First `"X"` row whose `Units_Sold` is `0`: the deduplication keeps
it, but step 9 then drops it. -/
def rXzero : Row :=
  { rGood with
    Order_ID := some "X", Units_Sold := some 0, Discount_Applied := some 0 }

def dfXdrop : List Row := [rXzero, rXsecond]

/-- Counterexample to C8 as stated: on an input with exactly two `"X"`
rows whose first has `Units_Sold = 0`, `transform_data` returns normally
but its output retains no `"X"` row at all (the first was kept at
deduplication and then removed by the zero-units filter), so retention
of the first row does depend on the rows' other field values. -/
theorem c8_counterexample :
    Except.map (fun p => (p.1.filter (keyEqB (some "X"))).length)
      (transform_data dfXdrop) = Except.ok 0 := by
  decide

end NikeETL

namespace NikeETL

/-! ### C7 -/

/-- Erase the `Revenue` column of a row. -/
def clearRev (r : Row) : Row := { r with Revenue := none }

theorem dedupA_map_clearRev : ∀ (l : List Row) (seen : List (Option String)),
    dedupA seen (l.map clearRev) = (dedupA seen l).map clearRev := by
  intro l
  induction l with
  | nil => intro seen; rfl
  | cons a as ih =>
    intro seen
    show dedupA seen (clearRev a :: as.map clearRev) = _
    unfold dedupA
    have hkey : (clearRev a).Order_ID = a.Order_ID := rfl
    rw [hkey]
    by_cases ha : a.Order_ID ∈ seen
    · rw [if_pos ha, if_pos ha]
      exact ih seen
    · rw [if_neg ha, if_neg ha, List.map_cons]
      congr 1
      exact ih _

theorem dedupFirst_clearRev (l : List Row) :
    dedupFirst (l.map clearRev) = (dedupFirst l).map clearRev :=
  dedupA_map_clearRev l []

theorem step1b_clearRev (l : List Row) :
    step1b (l.map clearRev) = Except.map (fun l' => l'.map clearRev) (step1b l) := by
  unfold step1b
  have hdates : (l.map clearRev).filterMap (fun r => dateNat r.Order_Date) =
      l.filterMap (fun r => dateNat r.Order_Date) := by
    rw [List.filterMap_map]
    rfl
  rw [hdates]
  cases modeBy natLtB (l.filterMap (fun r => dateNat r.Order_Date)) with
  | none => rfl
  | some dm =>
    show Except.ok ((l.map clearRev).map (dateFillRow dm)) =
      Except.ok ((l.map (dateFillRow dm)).map clearRev)
    rw [List.map_map, List.map_map]
    rfl

theorem step1_clearRev (df : List Row) :
    step1 (df.map clearRev) = Except.map (fun l => l.map clearRev) (step1 df) := by
  unfold step1
  have hsize : (df.map clearRev).filterMap (fun r => r.Size) =
      df.filterMap (fun r => r.Size) := by
    rw [List.filterMap_map]; rfl
  have hunits : (df.map clearRev).filterMap (fun r => r.Units_Sold) =
      df.filterMap (fun r => r.Units_Sold) := by
    rw [List.filterMap_map]; rfl
  have hmrp : (df.map clearRev).filterMap (fun r => r.MRP) =
      df.filterMap (fun r => r.MRP) := by
    rw [List.filterMap_map]; rfl
  rw [hsize, hunits, hmrp]
  cases modeBy strLtB (df.filterMap (fun r => r.Size)) with
  | none => rfl
  | some sm =>
    dsimp only
    have hmap : (df.map clearRev).map
        (fillRow sm (medianQ (df.filterMap (fun r => r.Units_Sold)))
          (medianQ (df.filterMap (fun r => r.MRP)))) =
        (df.map (fillRow sm (medianQ (df.filterMap (fun r => r.Units_Sold)))
          (medianQ (df.filterMap (fun r => r.MRP))))).map clearRev := by
      rw [List.map_map, List.map_map]
      rfl
    rw [hmap]
    rw [step1b_clearRev]

theorem restPipeline_fst_clearRev (l1 : List Row) :
    (restPipelineS (l1.map clearRev)).1 = (restPipelineS l1).1 := by
  unfold restPipelineS
  dsimp only
  rw [dedupFirst_clearRev]
  generalize dedupFirst l1 = l2
  have h5 : ((((l2.map clearRev).map regionRow).map lossRow).map recalcRow) =
      (((l2.map regionRow).map lossRow).map recalcRow) := by
    rw [List.map_map, List.map_map, List.map_map, List.map_map, List.map_map]
    rfl
  rw [h5]

theorem transform_fst_clearRev (df : List Row) :
    Except.map Prod.fst (transform_data (df.map clearRev)) =
      Except.map Prod.fst (transform_data df) := by
  unfold transform_data
  rw [step1_clearRev df]
  cases step1 df with
  | error e => rfl
  | ok l1 =>
    show Except.ok (restPipelineS (l1.map clearRev)).1 = Except.ok (restPipelineS l1).1
    rw [restPipeline_fst_clearRev]

/-- C7: input `Revenue` noninterference.  Any two input datasets that
agree after erasing the `Revenue` column (including one where the column
is entirely null) are transformed to the same cleaned dataset:
`Revenue` is recomputed unconditionally at step 5 and no step reads the
supplied value.  (The logged null count of step 1 — not part of the
returned dataset — is the only observable that can differ, hence the
comparison of the dataset components.) -/
theorem c7_revenue_noninterference (df1 df2 : List Row)
    (h : df1.map clearRev = df2.map clearRev) :
    Except.map Prod.fst (transform_data df1) =
      Except.map Prod.fst (transform_data df2) := by
  calc Except.map Prod.fst (transform_data df1)
      = Except.map Prod.fst (transform_data (df1.map clearRev)) :=
        (transform_fst_clearRev df1).symm
    _ = Except.map Prod.fst (transform_data (df2.map clearRev)) := by rw [h]
    _ = Except.map Prod.fst (transform_data df2) := transform_fst_clearRev df2

def rawRevNone : List Row := [{ rGood with Revenue := none }]

/-- Witness for C7: `rawGood` (stale `Revenue = 777`) and the same row
with `Revenue` entirely removed transform to the same dataset. -/
theorem c7_witness :
    rawGood.map clearRev = rawRevNone.map clearRev ∧
      Except.map Prod.fst (transform_data rawGood) =
        Except.map Prod.fst (transform_data rawRevNone) :=
  ⟨by decide, c7_revenue_noninterference rawGood rawRevNone (by decide)⟩

end NikeETL

namespace NikeETL

/-! ### C6 -/

theorem map_id_of_eq {f : Row → Row} : ∀ (l : List Row),
    (∀ a ∈ l, f a = a) → l.map f = l := by
  intro l
  induction l with
  | nil => intro _; rfl
  | cons a as ih =>
    intro h
    rw [List.map_cons, h a (List.mem_cons_self a as),
      ih (fun b hb => h b (List.mem_cons_of_mem a hb))]

/-- Step 1 is the identity on a dataset that is already fully imputed:
all `Size`, `Units_Sold`, `Discount_Applied` present, all dates parsed,
and the `MRP` column either fully present or fully missing. -/
theorem step1_ok_id {df l1' : List Row}
    (hS : ∀ r ∈ df, r.Size.isSome = true)
    (hU : ∀ r ∈ df, r.Units_Sold.isSome = true)
    (hD : ∀ r ∈ df, r.Discount_Applied.isSome = true)
    (hO : ∀ r ∈ df, ∃ n, r.Order_Date = some (DateVal.parsedD n))
    (hM : (∀ r ∈ df, r.MRP.isSome = true) ∨ (∀ r ∈ df, r.MRP = none))
    (h : step1 df = Except.ok l1') : l1' = df := by
  obtain ⟨sm, uM, mM, dm, _, _, hmM, hl⟩ := step1_destruct h
  subst hl
  have hfill : ∀ r ∈ df, dateFillRow dm (fillRow sm uM mM r) = r := by
    intro r hr
    have hmrp : fillO r.MRP mM = r.MRP := by
      rcases hM with hall | hnone
      · obtain ⟨mv, hmv⟩ := Option.isSome_iff_exists.mp (hall r hr)
        rw [hmv]
        rfl
      · have hnil : df.filterMap (fun r => r.MRP) = [] :=
          List.filterMap_eq_nil_iff.mpr (fun a ha => hnone a ha)
        rw [hnone r hr, hmM, hnil]
        rfl
    obtain ⟨sv, hsv⟩ := Option.isSome_iff_exists.mp (hS r hr)
    obtain ⟨uv, huv⟩ := Option.isSome_iff_exists.mp (hU r hr)
    obtain ⟨dv, hdv⟩ := Option.isSome_iff_exists.mp (hD r hr)
    obtain ⟨n, hn⟩ := hO r hr
    cases r with
    | mk o od reg pl gc sz us mrp da p rev lf ev =>
      dsimp only [fillRow, dateFillRow] at *
      simp only [Row.mk.injEq]
      refine ⟨trivial, ?_, trivial, trivial, trivial, ?_, ?_, ?_, ?_, trivial, trivial,
        trivial, trivial⟩
      · rw [hn]
        rfl
      · rw [hsv]
        rfl
      · rw [huv]
        rfl
      · exact hmrp
      · rw [hdv]
        rfl
  rw [List.map_map]
  exact map_id_of_eq df hfill

/-- C6: partial idempotence of the Transformer.  If `transform_data`
succeeds on `raw` and is re-run on its own output (the outlier
multiplier is the fixed configuration constant, hence unchanged), the
re-run's deduplication step removes `0` rows and its imputation step
fills `0` values (the logged null difference is `0`): the output's
`Order_ID`s are already unique and every imputed field is already
present (`MRP` being all-missing is preserved by a missing-median fill,
which changes nothing). -/
theorem c6_partial_idempotence (raw out out2 : List Row) (s s2 : TransformStats)
    (h1 : transform_data raw = Except.ok (out, s))
    (h2 : transform_data out = Except.ok (out2, s2)) :
    s2.duplicatesRemoved = 0 ∧ s2.nullsFilled = 0 := by
  obtain ⟨l1', hs1', _, hnf, hdup⟩ := transform_destruct h2
  obtain ⟨l1, hs1, hmem⟩ := mem_transform_out h1
  have hfacts := step1_row_facts hs1
  have hS : ∀ r ∈ out, r.Size.isSome = true := by
    intro r hr
    obtain ⟨r1, hr1, heq, _⟩ := hmem r hr
    rw [heq, postAll_Size]
    exact (hfacts r1 hr1).1
  have hU : ∀ r ∈ out, r.Units_Sold.isSome = true := by
    intro r hr
    obtain ⟨_, _, _, hpos⟩ := hmem r hr
    unfold unitsPosRow at hpos
    cases hu : r.Units_Sold with
    | none => rw [hu] at hpos; exact absurd hpos (by simp)
    | some u => rfl
  have hD : ∀ r ∈ out, r.Discount_Applied.isSome = true := by
    intro r hr
    obtain ⟨r1, hr1, heq, _⟩ := hmem r hr
    rw [heq, postAll_Discount]
    exact (hfacts r1 hr1).2.1
  have hO : ∀ r ∈ out, ∃ n, r.Order_Date = some (DateVal.parsedD n) := by
    intro r hr
    obtain ⟨r1, hr1, heq, _⟩ := hmem r hr
    rw [heq, postAll_Order_Date]
    exact (hfacts r1 hr1).2.2
  have hM : (∀ r ∈ out, r.MRP.isSome = true) ∨ (∀ r ∈ out, r.MRP = none) := by
    rcases step1_mrp_dichotomy hs1 with hall | hnone
    · left
      intro r hr
      obtain ⟨r1, hr1, heq, _⟩ := hmem r hr
      rw [heq, postAll_MRP]
      exact hall r1 hr1
    · right
      intro r hr
      obtain ⟨r1, hr1, heq, _⟩ := hmem r hr
      rw [heq, postAll_MRP]
      exact hnone r1 hr1
  have hld : l1' = out := step1_ok_id hS hU hD hO hM hs1'
  subst hld
  constructor
  · have hded : dedupFirst l1' = l1' :=
      dedupA_eq_self l1' [] (out_keys_nodup h1)
        (fun r _ hmem' => absurd hmem' (List.not_mem_nil _))
    rw [hdup, hded, Nat.sub_self]
  · rw [hnf]
    exact sub_self _

/-- Witness for C6: re-running the Transformer on the cleaned `rawGood`
output succeeds with `0` duplicates removed and `0` values filled. -/
theorem c6_witness :
    transform_data rawGood = Except.ok (outGood, statsGood) ∧
      transform_data outGood = Except.ok (outGood, statsGood) ∧
      (statsGood.duplicatesRemoved = 0 ∧ statsGood.nullsFilled = 0) :=
  ⟨by decide, by decide,
    c6_partial_idempotence rawGood outGood outGood statsGood statsGood
      (by decide) (by decide)⟩

end NikeETL
